import Mathlib

/-
Shallow embedding of the eLog subscriber-dispatch and threshold engine
(eLog.c / eLog.h).

Modelling conventions:
* C function pointers (log_subscriber_t) are modelled as `Option Nat`:
  `none` is the NULL pointer, `some k` an arbitrary non-null callback
  identity.  Pointer equality is decidable equality on this type.
* The fixed C arrays `s_subscribers[LOG_MAX_SUBSCRIBERS]` (with count
  `s_num_subscribers`) and `fileLogLevels[MAX_FILE_LOG_LEVELS]` (with count
  `fileLogLevelCount`) are modelled as lists holding exactly the first
  `count` slots: every loop in the source runs over `[0, count)`, so slots
  beyond the count are unobservable; appending at index `count` and
  incrementing the count is list append.
* The shared buffer `s_message_buffer[LOG_MAX_MESSAGE_LENGTH]` is a String
  field of the state.  `vsnprintf(buf, n, ...)` / `snprintf(buf, n, ...)`
  store at most n-1 characters plus a terminator; printf-style formatting
  itself is out of scope, so emit operations take the already-rendered
  text and the model keeps the bounded truncation (`strTake (n-1)`).
* Subscriber invocation is side-effect free in the model: each dispatch
  returns the list of calls `entry.fn(level, buffer)` it performs, in loop
  order.
* The mutex is environment-controlled: the thread-safe variants take the
  `s_mutex_initialized` flag and the result of `elogMutexTake` as explicit
  parameters.
-/

namespace ELog

/-- Severity values from the log_level_t enum in eLog.h (TRACE = 100, each
following constant one larger). -/
def LOG_LEVEL_TRACE : Nat := 100

/-- Severity DEBUG from log_level_t. -/
def LOG_LEVEL_DEBUG : Nat := 101

/-- Severity INFO from log_level_t. -/
def LOG_LEVEL_INFO : Nat := 102

/-- Severity WARNING from log_level_t. -/
def LOG_LEVEL_WARNING : Nat := 103

/-- Severity ERROR from log_level_t. -/
def LOG_LEVEL_ERROR : Nat := 104

/-- Severity CRITICAL from log_level_t. -/
def LOG_LEVEL_CRITICAL : Nat := 105

/-- Severity ALWAYS from log_level_t. -/
def LOG_LEVEL_ALWAYS : Nat := 106

/-- Capacity of the subscriber table (eLog.h default). -/
def LOG_MAX_SUBSCRIBERS : Nat := 6

/-- Size of the shared message buffer (eLog.h default). -/
def LOG_MAX_MESSAGE_LENGTH : Nat := 128

/-- Capacity of the per-file threshold table (eLog.c). -/
def MAX_FILE_LOG_LEVELS : Nat := 16

/-- Auto-computed default threshold: with the default configuration in
eLog.h, DEBUG_TRACE is YES, so LOG_AUTO_THRESHOLD resolves to
LOG_LEVEL_TRACE. -/
def LOG_AUTO_THRESHOLD : Nat := LOG_LEVEL_TRACE

/-- Error codes of log_err_t in eLog.h. -/
inductive log_err_t where
  | LOG_ERR_NONE
  | LOG_ERR_SUBSCRIBERS_EXCEEDED
  | LOG_ERR_NOT_SUBSCRIBED
  | LOG_ERR_INVALID_LEVEL
  deriving DecidableEq, Repr

/-- Thread-safety result codes of elog_thread_result_t in eLog.h. -/
inductive elog_thread_result_t where
  | ELOG_THREAD_OK
  | ELOG_THREAD_TIMEOUT
  | ELOG_THREAD_ERROR
  | ELOG_THREAD_NOT_SUPPORTED
  deriving DecidableEq, Repr

open log_err_t elog_thread_result_t

/-- One slot of the subscriber table (subscriber_entry_t in eLog.c).  The C
field `active` is an int used only as 0/1, modelled as Bool. -/
structure subscriber_entry_t where
  fn : Option Nat
  threshold : Nat
  active : Bool
  deriving DecidableEq, Repr

/-- One slot of the per-file threshold table (FileLogLevelEntry in
eLog.c); `filename` holds at most 31 characters. -/
structure FileLogLevelEntry where
  filename : String
  threshold : Nat
  deriving DecidableEq, Repr

/-- The process-wide mutable state of eLog.c: subscriber table with its
count, per-file threshold table with its count, and the shared message
buffer. -/
structure ElogState where
  subscribers : List subscriber_entry_t
  fileLogLevels : List FileLogLevelEntry
  messageBuffer : String
  deriving DecidableEq, Repr

/-- One callback invocation `fn(level, msg)` performed by a dispatch
loop. -/
structure Invocation where
  fn : Option Nat
  level : Nat
  msg : String
  deriving DecidableEq, Repr

/-- Bounded store of a rendered string into a buffer that keeps `n`
characters plus the terminator: `vsnprintf(buf, n+1, ...)` /
`strncpy(buf, src, n)` with forced termination keep the first `n`
characters. -/
def strTake (n : Nat) (msg : String) : String :=
  (msg.toList.take n).asString

/-- Helper for debug_get_filename: the C loop keeps `ret = p + 1` at every
slash or backslash, so the result is the suffix following the last
separator; `acc` is the current `ret`. -/
def afterLastSlash (acc : List Char) : List Char → List Char
  | [] => acc
  | c :: rest =>
    if c = '/' ∨ c = '\\' then afterLastSlash rest rest
    else afterLastSlash acc rest

/-- debug_get_filename from eLog.h: strips everything up to and including
the last path separator. -/
def debug_get_filename (fullpath : String) : String :=
  (afterLastSlash fullpath.toList fullpath.toList).asString

/-- elog_init from eLog.c: clears every subscriber slot and resets the
count to 0, making the visible subscriber table empty.  It does not touch
fileLogLevels, fileLogLevelCount or the message buffer.  (The mutex
creation under ELOG_THREAD_SAFE only sets the mutex flag, which the model
passes to the safe variants explicitly.) -/
def elog_init (s : ElogState) : ElogState :=
  { s with subscribers := [] }

/-- The scan loop of elog_subscribe: find the first entry with
`s_subscribers[i].fn == fn && s_subscribers[i].active`, update its
threshold in place and stop; `none` when no such entry exists. -/
def updateActiveMatch (fn : Option Nat) (threshold : Nat) :
    List subscriber_entry_t → Option (List subscriber_entry_t)
  | [] => none
  | e :: rest =>
    if e.fn = fn ∧ e.active = true then
      some ({ e with threshold := threshold } :: rest)
    else
      (updateActiveMatch fn threshold rest).map (e :: ·)

/-- elog_subscribe from eLog.c: reject when the table is full, otherwise
update an existing active entry for `fn` in place, otherwise append a new
active entry. -/
def elog_subscribe (fn : Option Nat) (threshold : Nat) (s : ElogState) :
    log_err_t × ElogState :=
  if LOG_MAX_SUBSCRIBERS ≤ s.subscribers.length then
    (LOG_ERR_SUBSCRIBERS_EXCEEDED, s)
  else
    match updateActiveMatch fn threshold s.subscribers with
    | some subs => (LOG_ERR_NONE, { s with subscribers := subs })
    | none =>
      (LOG_ERR_NONE,
        { s with subscribers := s.subscribers ++ [⟨fn, threshold, true⟩] })

/-- The scan loop of elog_unsubscribe: deactivate the first entry with
`s_subscribers[i].fn == fn && s_subscribers[i].active`; `none` when no
such entry exists. -/
def deactivateActiveMatch (fn : Option Nat) :
    List subscriber_entry_t → Option (List subscriber_entry_t)
  | [] => none
  | e :: rest =>
    if e.fn = fn ∧ e.active = true then
      some ({ e with active := false } :: rest)
    else
      (deactivateActiveMatch fn rest).map (e :: ·)

/-- elog_unsubscribe from eLog.c. -/
def elog_unsubscribe (fn : Option Nat) (s : ElogState) :
    log_err_t × ElogState :=
  match deactivateActiveMatch fn s.subscribers with
  | some subs => (LOG_ERR_NONE, { s with subscribers := subs })
  | none => (LOG_ERR_NOT_SUBSCRIBED, s)

/-- The dispatch loop shared by every emit path: for each entry in table
order with `active && level >= threshold`, call `fn(level, buffer)`. -/
def dispatchCalls (level : Nat) (buffer : String) :
    List subscriber_entry_t → List Invocation
  | [] => []
  | e :: rest =>
    if e.active = true ∧ e.threshold ≤ level then
      ⟨e.fn, level, buffer⟩ :: dispatchCalls level buffer rest
    else
      dispatchCalls level buffer rest

/-- elog_message from eLog.c: render the text into the shared buffer
(vsnprintf keeps at most LOG_MAX_MESSAGE_LENGTH - 1 characters) and run
the dispatch loop. -/
def elog_message (level : Nat) (msg : String) (s : ElogState) :
    ElogState × List Invocation :=
  let buf := strTake (LOG_MAX_MESSAGE_LENGTH - 1) msg
  ({ s with messageBuffer := buf }, dispatchCalls level buf s.subscribers)

/-- The lookup loop of elog_get_file_threshold: first entry whose stored
filename strcmp-equals the argument. -/
def lookupFileThreshold (nm : String) :
    List FileLogLevelEntry → Option Nat
  | [] => none
  | e :: rest =>
    if e.filename = nm then some e.threshold
    else lookupFileThreshold nm rest

/-- elog_get_file_threshold from eLog.c: LOG_AUTO_THRESHOLD for a NULL
name or when no entry matches. -/
def elog_get_file_threshold (filename : Option String) (s : ElogState) :
    Nat :=
  match filename with
  | none => LOG_AUTO_THRESHOLD
  | some nm => (lookupFileThreshold nm s.fileLogLevels).getD LOG_AUTO_THRESHOLD

/-- The scan loop of elog_set_file_threshold: overwrite the threshold of
the first entry whose stored filename strcmp-equals the full argument
name; `none` when no entry matches. -/
def setFileThresholdScan (nm : String) (threshold : Nat) :
    List FileLogLevelEntry → Option (List FileLogLevelEntry)
  | [] => none
  | e :: rest =>
    if e.filename = nm then
      some ({ e with threshold := threshold } :: rest)
    else
      (setFileThresholdScan nm threshold rest).map (e :: ·)

/-- elog_set_file_threshold from eLog.c: NULL name rejected with
LOG_ERR_INVALID_LEVEL; otherwise overwrite a matching entry in place,
else append (strncpy stores the first 31 characters of the name) when
capacity remains, else LOG_ERR_SUBSCRIBERS_EXCEEDED. -/
def elog_set_file_threshold (filename : Option String) (threshold : Nat)
    (s : ElogState) : log_err_t × ElogState :=
  match filename with
  | none => (LOG_ERR_INVALID_LEVEL, s)
  | some nm =>
    match setFileThresholdScan nm threshold s.fileLogLevels with
    | some tbl => (LOG_ERR_NONE, { s with fileLogLevels := tbl })
    | none =>
      if s.fileLogLevels.length < MAX_FILE_LOG_LEVELS then
        (LOG_ERR_NONE,
          { s with fileLogLevels :=
              s.fileLogLevels ++ [⟨strTake 31 nm, threshold⟩] })
      else
        (LOG_ERR_SUBSCRIBERS_EXCEEDED, s)

/-- The location prefix composed by `snprintf(buf, n, "[%s][%s][%d] %s",
file, func, line, temp)`. -/
def locationFormat (file func : String) (line : Int) (temp : String) :
    String :=
  "[" ++ file ++ "][" ++ func ++ "][" ++ toString line ++ "] " ++ temp

/-- elog_message_with_location from eLog.c: resolve the per-file
threshold for `debug_get_filename(file)` and return immediately when
`level < threshold`; otherwise render the user text into a temporary
buffer of LOG_MAX_MESSAGE_LENGTH - 64 bytes, compose the location-prefixed
line into the shared buffer and run the dispatch loop. -/
def elog_message_with_location (level : Nat) (file func : String)
    (line : Int) (msg : String) (s : ElogState) :
    ElogState × List Invocation :=
  let filename := debug_get_filename file
  let threshold := elog_get_file_threshold (some filename) s
  if level < threshold then
    (s, [])
  else
    let temp := strTake (LOG_MAX_MESSAGE_LENGTH - 64 - 1) msg
    let buf := strTake (LOG_MAX_MESSAGE_LENGTH - 1)
      (locationFormat file func line temp)
    ({ s with messageBuffer := buf }, dispatchCalls level buf s.subscribers)

/-- elog_subscribe_safe from eLog.c (ELOG_THREAD_SAFE == 1):
with the mutex flag unset it falls back to elog_subscribe; a failed
mutex take reports LOG_ERR_SUBSCRIBERS_EXCEEDED; otherwise the same
duplicate-scan/append body runs under the lock (the capacity test here
guards the whole body). -/
def elog_subscribe_safe (mutexInit : Bool)
    (takeResult : elog_thread_result_t) (fn : Option Nat)
    (threshold : Nat) (s : ElogState) : log_err_t × ElogState :=
  if mutexInit = false then
    elog_subscribe fn threshold s
  else if takeResult ≠ ELOG_THREAD_OK then
    (LOG_ERR_SUBSCRIBERS_EXCEEDED, s)
  else if s.subscribers.length < LOG_MAX_SUBSCRIBERS then
    match updateActiveMatch fn threshold s.subscribers with
    | some subs => (LOG_ERR_NONE, { s with subscribers := subs })
    | none =>
      (LOG_ERR_NONE,
        { s with subscribers := s.subscribers ++ [⟨fn, threshold, true⟩] })
  else
    (LOG_ERR_SUBSCRIBERS_EXCEEDED, s)

/-- elog_unsubscribe_safe from eLog.c (ELOG_THREAD_SAFE == 1): with the
mutex flag unset it falls back to elog_unsubscribe; a failed mutex take
reports LOG_ERR_NOT_SUBSCRIBED; otherwise the same deactivation loop runs
under the lock. -/
def elog_unsubscribe_safe (mutexInit : Bool)
    (takeResult : elog_thread_result_t) (fn : Option Nat) (s : ElogState) :
    log_err_t × ElogState :=
  if mutexInit = false then
    elog_unsubscribe fn s
  else if takeResult ≠ ELOG_THREAD_OK then
    (LOG_ERR_NOT_SUBSCRIBED, s)
  else
    match deactivateActiveMatch fn s.subscribers with
    | some subs => (LOG_ERR_NONE, { s with subscribers := subs })
    | none => (LOG_ERR_NOT_SUBSCRIBED, s)

/-- elog_message_safe from eLog.c (ELOG_THREAD_SAFE == 1): with the mutex
flag unset it runs a verbatim copy of the elog_message body; a failed
mutex take silently drops the message; otherwise the elog_message body
runs under the lock. -/
def elog_message_safe (mutexInit : Bool)
    (takeResult : elog_thread_result_t) (level : Nat) (msg : String)
    (s : ElogState) : ElogState × List Invocation :=
  if mutexInit = false then
    elog_message level msg s
  else if takeResult ≠ ELOG_THREAD_OK then
    (s, [])
  else
    elog_message level msg s

/-- elog_message_with_location_safe from eLog.c (ELOG_THREAD_SAFE == 1).
Unlike elog_message_with_location, NEITHER path of this function consults
the per-file threshold table: the fallback body and the locked body both
format and dispatch unconditionally (source lines 504-555). -/
def elog_message_with_location_safe (mutexInit : Bool)
    (takeResult : elog_thread_result_t) (level : Nat) (file func : String)
    (line : Int) (msg : String) (s : ElogState) :
    ElogState × List Invocation :=
  if mutexInit = false then
    let temp := strTake (LOG_MAX_MESSAGE_LENGTH - 64 - 1) msg
    let buf := strTake (LOG_MAX_MESSAGE_LENGTH - 1)
      (locationFormat file func line temp)
    ({ s with messageBuffer := buf }, dispatchCalls level buf s.subscribers)
  else if takeResult ≠ ELOG_THREAD_OK then
    (s, [])
  else
    let temp := strTake (LOG_MAX_MESSAGE_LENGTH - 64 - 1) msg
    let buf := strTake (LOG_MAX_MESSAGE_LENGTH - 1)
      (locationFormat file func line temp)
    ({ s with messageBuffer := buf }, dispatchCalls level buf s.subscribers)

/-- An entry counted by the duplicate/unsubscribe scans: active with the
given callback identity. -/
def isActiveFor (fn : Option Nat) (e : subscriber_entry_t) : Bool :=
  e.active && decide (e.fn = fn)

/-- Number of active entries for a given callback identity. -/
def countActiveFor (fn : Option Nat) (subs : List subscriber_entry_t) :
    Nat :=
  (subs.filter (isActiveFor fn)).length

/-- At most one active entry per distinct callback identity. -/
def UniqueActive (subs : List subscriber_entry_t) : Prop :=
  ∀ fn, countActiveFor fn subs ≤ 1

/- ======================= helper lemmas ======================= -/

theorem strTake_of_length_le (n : Nat) (msg : String)
    (h : msg.toList.length ≤ n) : strTake n msg = msg := by
  simp only [strTake, List.take_of_length_le h]
  cases msg
  rfl

theorem dispatchCalls_eq_filter_map (level : Nat) (buffer : String)
    (subs : List subscriber_entry_t) :
    dispatchCalls level buffer subs =
      (subs.filter (fun e => e.active && decide (e.threshold ≤ level))).map
        (fun e => ⟨e.fn, level, buffer⟩) := by
  induction subs with
  | nil => rfl
  | cons e rest ih =>
    by_cases h : e.active = true ∧ e.threshold ≤ level
    · rw [dispatchCalls, if_pos h, List.filter_cons_of_pos (by simpa using h),
        List.map_cons, ih]
    · rw [dispatchCalls, if_neg h, List.filter_cons_of_neg (by simpa using h), ih]

theorem countActiveFor_append (g : Option Nat)
    (l1 l2 : List subscriber_entry_t) :
    countActiveFor g (l1 ++ l2) =
      countActiveFor g l1 + countActiveFor g l2 := by
  simp [countActiveFor, List.filter_append]

theorem countActiveFor_cons (g : Option Nat) (e : subscriber_entry_t)
    (l : List subscriber_entry_t) :
    countActiveFor g (e :: l) =
      (if isActiveFor g e then 1 else 0) + countActiveFor g l := by
  by_cases h : isActiveFor g e <;>
    simp [countActiveFor, List.filter_cons, h, Nat.add_comm]

theorem isActiveFor_eq_true_iff (fn : Option Nat) (e : subscriber_entry_t) :
    isActiveFor fn e = true ↔ (e.fn = fn ∧ e.active = true) := by
  simp [isActiveFor, and_comm]

theorem countActiveFor_eq_zero_iff (fn : Option Nat)
    (subs : List subscriber_entry_t) :
    countActiveFor fn subs = 0 ↔
      ∀ e ∈ subs, ¬(e.fn = fn ∧ e.active = true) := by
  simp [countActiveFor, List.length_eq_zero, List.filter_eq_nil_iff,
    isActiveFor_eq_true_iff]

theorem updateActiveMatch_eq_none_iff (fn : Option Nat) (t : Nat)
    (subs : List subscriber_entry_t) :
    updateActiveMatch fn t subs = none ↔
      ∀ e ∈ subs, ¬(e.fn = fn ∧ e.active = true) := by
  induction subs with
  | nil => simp [updateActiveMatch]
  | cons e rest ih =>
    rw [updateActiveMatch]
    by_cases h : e.fn = fn ∧ e.active = true
    · rw [if_pos h]
      constructor
      · intro hc
        exact absurd hc (by simp)
      · intro hall
        exact absurd h (hall e (List.mem_cons_self e rest))
    · rw [if_neg h, Option.map_eq_none', ih]
      constructor
      · intro hall e2 he2
        rcases List.mem_cons.mp he2 with rfl | h2
        · exact h
        · exact hall e2 h2
      · intro hall e2 he2
        exact hall e2 (List.mem_cons_of_mem e he2)

theorem updateActiveMatch_eq_some (fn : Option Nat) (t : Nat)
    (subs l : List subscriber_entry_t)
    (h : updateActiveMatch fn t subs = some l) :
    ∃ pre e post, subs = pre ++ e :: post ∧
      l = pre ++ { e with threshold := t } :: post ∧
      (e.fn = fn ∧ e.active = true) ∧
      ∀ e2 ∈ pre, ¬(e2.fn = fn ∧ e2.active = true) := by
  induction subs generalizing l with
  | nil => simp [updateActiveMatch] at h
  | cons e rest ih =>
    by_cases hc : e.fn = fn ∧ e.active = true
    · rw [updateActiveMatch, if_pos hc] at h
      exact ⟨[], e, rest, rfl, by simpa using h.symm, hc, by simp⟩
    · rw [updateActiveMatch, if_neg hc] at h
      rcases Option.map_eq_some'.mp h with ⟨l2, hl2, rfl⟩
      rcases ih l2 hl2 with ⟨pre, e2, post, hsub, hl, hmatch, hpre⟩
      refine ⟨e :: pre, e2, post, by simp [hsub], by simp [hl], hmatch, ?_⟩
      intro e3 he3
      rcases List.mem_cons.mp he3 with rfl | h3
      · exact hc
      · exact hpre e3 h3

theorem updateActiveMatch_counts (fn : Option Nat) (t : Nat)
    (subs l : List subscriber_entry_t)
    (h : updateActiveMatch fn t subs = some l) (g : Option Nat) :
    countActiveFor g l = countActiveFor g subs ∧ l.length = subs.length := by
  rcases updateActiveMatch_eq_some fn t subs l h with
    ⟨pre, e, post, hsub, hl, _, _⟩
  subst hsub
  subst hl
  constructor
  · have hiso : isActiveFor g { e with threshold := t } = isActiveFor g e := by
      simp [isActiveFor]
    simp only [countActiveFor, List.filter_append, List.filter_cons, hiso,
      List.length_append]
    by_cases h2 : isActiveFor g e
    · simp [h2]
    · simp [h2]
  · simp

theorem deactivateActiveMatch_eq_none_iff (fn : Option Nat)
    (subs : List subscriber_entry_t) :
    deactivateActiveMatch fn subs = none ↔
      ∀ e ∈ subs, ¬(e.fn = fn ∧ e.active = true) := by
  induction subs with
  | nil => simp [deactivateActiveMatch]
  | cons e rest ih =>
    rw [deactivateActiveMatch]
    by_cases h : e.fn = fn ∧ e.active = true
    · rw [if_pos h]
      constructor
      · intro hc
        exact absurd hc (by simp)
      · intro hall
        exact absurd h (hall e (List.mem_cons_self e rest))
    · rw [if_neg h, Option.map_eq_none', ih]
      constructor
      · intro hall e2 he2
        rcases List.mem_cons.mp he2 with rfl | h2
        · exact h
        · exact hall e2 h2
      · intro hall e2 he2
        exact hall e2 (List.mem_cons_of_mem e he2)

theorem deactivateActiveMatch_eq_some (fn : Option Nat)
    (subs l : List subscriber_entry_t)
    (h : deactivateActiveMatch fn subs = some l) :
    ∃ pre e post, subs = pre ++ e :: post ∧
      l = pre ++ { e with active := false } :: post ∧
      (e.fn = fn ∧ e.active = true) ∧
      ∀ e2 ∈ pre, ¬(e2.fn = fn ∧ e2.active = true) := by
  induction subs generalizing l with
  | nil => simp [deactivateActiveMatch] at h
  | cons e rest ih =>
    by_cases hc : e.fn = fn ∧ e.active = true
    · rw [deactivateActiveMatch, if_pos hc] at h
      exact ⟨[], e, rest, rfl, by simpa using h.symm, hc, by simp⟩
    · rw [deactivateActiveMatch, if_neg hc] at h
      rcases Option.map_eq_some'.mp h with ⟨l2, hl2, rfl⟩
      rcases ih l2 hl2 with ⟨pre, e2, post, hsub, hl, hmatch, hpre⟩
      refine ⟨e :: pre, e2, post, by simp [hsub], by simp [hl], hmatch, ?_⟩
      intro e3 he3
      rcases List.mem_cons.mp he3 with rfl | h3
      · exact hc
      · exact hpre e3 h3

theorem deactivateActiveMatch_count_le (fn : Option Nat)
    (subs l : List subscriber_entry_t)
    (h : deactivateActiveMatch fn subs = some l) (g : Option Nat) :
    countActiveFor g l ≤ countActiveFor g subs := by
  rcases deactivateActiveMatch_eq_some fn subs l h with
    ⟨pre, e, post, hsub, hl, _, _⟩
  subst hsub
  subst hl
  simp only [countActiveFor, List.filter_append, List.filter_cons,
    List.length_append]
  have : isActiveFor g { e with active := false } = false := by
    simp [isActiveFor]
  rw [this]
  by_cases h2 : isActiveFor g e
  · simp [h2]
  · simp [h2]

theorem setFileThresholdScan_eq_none_iff (nm : String) (t : Nat)
    (tbl : List FileLogLevelEntry) :
    setFileThresholdScan nm t tbl = none ↔ ∀ e ∈ tbl, e.filename ≠ nm := by
  induction tbl with
  | nil => simp [setFileThresholdScan]
  | cons e rest ih =>
    rw [setFileThresholdScan]
    by_cases h : e.filename = nm
    · rw [if_pos h]
      constructor
      · intro hc
        exact absurd hc (by simp)
      · intro hall
        exact absurd h (hall e (List.mem_cons_self e rest))
    · rw [if_neg h, Option.map_eq_none', ih]
      constructor
      · intro hall e2 he2
        rcases List.mem_cons.mp he2 with rfl | h2
        · exact h
        · exact hall e2 h2
      · intro hall e2 he2
        exact hall e2 (List.mem_cons_of_mem e he2)

theorem setFileThresholdScan_preserves (nm : String) (t : Nat)
    (tbl l : List FileLogLevelEntry)
    (h : setFileThresholdScan nm t tbl = some l) :
    l.length = tbl.length ∧
    l.map (fun e => e.filename) = tbl.map (fun e => e.filename) := by
  induction tbl generalizing l with
  | nil => simp [setFileThresholdScan] at h
  | cons e rest ih =>
    rw [setFileThresholdScan] at h
    by_cases hc : e.filename = nm
    · rw [if_pos hc] at h
      cases h
      simp
    · rw [if_neg hc] at h
      rcases Option.map_eq_some'.mp h with ⟨l2, hl2, rfl⟩
      rcases ih l2 hl2 with ⟨h1, h2⟩
      simp [h1, h2]

theorem set_file_threshold_found_length (nm : String) (t : Nat)
    (s : ElogState) (h : ∃ e ∈ s.fileLogLevels, e.filename = nm) :
    ((elog_set_file_threshold (some nm) t s).2).fileLogLevels.length =
      s.fileLogLevels.length := by
  rcases hscan : setFileThresholdScan nm t s.fileLogLevels with _ | l
  · rw [setFileThresholdScan_eq_none_iff] at hscan
    rcases h with ⟨e, he, hnm⟩
    exact absurd hnm (hscan e he)
  · simp only [elog_set_file_threshold, hscan]
    exact (setFileThresholdScan_preserves nm t s.fileLogLevels l hscan).1

theorem set_file_threshold_success_mem (nm : String) (t : Nat)
    (s : ElogState) (hstore : strTake 31 nm = nm)
    (h : (elog_set_file_threshold (some nm) t s).1 = LOG_ERR_NONE) :
    ∃ e ∈ (elog_set_file_threshold (some nm) t s).2.fileLogLevels,
      e.filename = nm := by
  rcases hscan : setFileThresholdScan nm t s.fileLogLevels with _ | l
  · by_cases hcap : s.fileLogLevels.length < MAX_FILE_LOG_LEVELS
    · simp only [elog_set_file_threshold, hscan, if_pos hcap]
      exact ⟨⟨strTake 31 nm, t⟩, by simp, by rw [hstore]⟩
    · simp only [elog_set_file_threshold, hscan, if_neg hcap] at h
      exact absurd h (by simp)
  · have hex : ∃ e ∈ s.fileLogLevels, e.filename = nm := by
      by_contra hmem
      push_neg at hmem
      have hn : setFileThresholdScan nm t s.fileLogLevels = none :=
        (setFileThresholdScan_eq_none_iff nm t s.fileLogLevels).mpr hmem
      simp [hn] at hscan
    have hpres := (setFileThresholdScan_preserves nm t s.fileLogLevels l hscan).2
    rcases hex with ⟨e, he, hnm⟩
    have hmem2 : nm ∈ l.map (fun e => e.filename) := by
      rw [hpres]
      exact List.mem_map.mpr ⟨e, he, hnm⟩
    rcases List.mem_map.mp hmem2 with ⟨e2, he2, hnm2⟩
    simp only [elog_set_file_threshold, hscan]
    exact ⟨e2, he2, hnm2⟩

theorem set_file_threshold_not_none (nm : String) (t : Nat) (s : ElogState)
    (h : (elog_set_file_threshold (some nm) t s).1 ≠ LOG_ERR_NONE) :
    (elog_set_file_threshold (some nm) t s).1 =
      LOG_ERR_SUBSCRIBERS_EXCEEDED ∧
    (elog_set_file_threshold (some nm) t s).2 = s := by
  rcases hscan : setFileThresholdScan nm t s.fileLogLevels with _ | l
  · by_cases hcap : s.fileLogLevels.length < MAX_FILE_LOG_LEVELS
    · simp only [elog_set_file_threshold, hscan, if_pos hcap] at h
      exact absurd rfl h
    · refine ⟨?_, ?_⟩ <;> simp [elog_set_file_threshold, hscan, hcap]
  · simp only [elog_set_file_threshold, hscan] at h
    exact absurd rfl h

/- ======================= claim theorems ======================= -/

/-- Claim C1, counterexample: a registry whose six slots are consumed and
whose first entry is an active subscription for callback 1 refuses a
re-subscribe of callback 1: both elog_subscribe and elog_subscribe_safe
(mutex present, take succeeded) test the capacity before the duplicate
scan, so they return LOG_ERR_SUBSCRIBERS_EXCEEDED instead of the
LOG_ERR_NONE the claim requires. -/
theorem c1_full_table_resubscribe_fails :
    countActiveFor (some 1)
      [⟨some 1, 100, true⟩, ⟨some 2, 100, true⟩, ⟨some 3, 100, true⟩,
       ⟨some 4, 100, true⟩, ⟨some 5, 100, true⟩, ⟨some 6, 100, true⟩] = 1 ∧
    (elog_subscribe (some 1) LOG_LEVEL_ERROR
      ⟨[⟨some 1, 100, true⟩, ⟨some 2, 100, true⟩, ⟨some 3, 100, true⟩,
        ⟨some 4, 100, true⟩, ⟨some 5, 100, true⟩, ⟨some 6, 100, true⟩],
       [], ""⟩).1 = LOG_ERR_SUBSCRIBERS_EXCEEDED ∧
    (elog_subscribe_safe true ELOG_THREAD_OK (some 1) LOG_LEVEL_ERROR
      ⟨[⟨some 1, 100, true⟩, ⟨some 2, 100, true⟩, ⟨some 3, 100, true⟩,
        ⟨some 4, 100, true⟩, ⟨some 5, 100, true⟩, ⟨some 6, 100, true⟩],
       [], ""⟩).1 = LOG_ERR_SUBSCRIBERS_EXCEEDED := by
  decide

/-- Claim C1 (amended): when the appended subscriber count is strictly
below the maximum and exactly one active entry for fn exists, subscribe
(fn, t) returns LOG_ERR_NONE, appends nothing (length unchanged), leaves
exactly one active entry for fn, every active entry for fn now carries
threshold t, and elog_subscribe_safe with the mutex present and acquired
behaves identically; on a full table even a re-subscribe fails with
LOG_ERR_SUBSCRIBERS_EXCEEDED (see the counterexample). -/
theorem c1_resubscribe_updates_in_place (fn : Option Nat) (t : Nat)
    (s : ElogState) (hlen : s.subscribers.length < LOG_MAX_SUBSCRIBERS)
    (hone : countActiveFor fn s.subscribers = 1) :
    (elog_subscribe fn t s).1 = LOG_ERR_NONE ∧
    (elog_subscribe fn t s).2.subscribers.length = s.subscribers.length ∧
    countActiveFor fn (elog_subscribe fn t s).2.subscribers = 1 ∧
    (∀ e ∈ (elog_subscribe fn t s).2.subscribers,
      isActiveFor fn e = true → e.threshold = t) ∧
    elog_subscribe_safe true ELOG_THREAD_OK fn t s = elog_subscribe fn t s := by
  have hne : updateActiveMatch fn t s.subscribers ≠ none := by
    intro hn
    rw [updateActiveMatch_eq_none_iff, ← countActiveFor_eq_zero_iff] at hn
    omega
  rcases hl : updateActiveMatch fn t s.subscribers with _ | l
  · exact absurd hl hne
  have hnotfull : ¬ (LOG_MAX_SUBSCRIBERS ≤ s.subscribers.length) := by omega
  have heq : elog_subscribe fn t s = (LOG_ERR_NONE, { s with subscribers := l }) := by
    rw [elog_subscribe, if_neg hnotfull, hl]
  have heqsafe : elog_subscribe_safe true ELOG_THREAD_OK fn t s =
      (LOG_ERR_NONE, { s with subscribers := l }) := by
    rw [elog_subscribe_safe, if_neg (by simp), if_neg (by simp),
      if_pos hlen, hl]
  rcases updateActiveMatch_eq_some fn t s.subscribers l hl with
    ⟨pre, e, post, hsub, hldef, hmatch, hpre⟩
  have he : isActiveFor fn e = true := (isActiveFor_eq_true_iff fn e).mpr hmatch
  have hp : countActiveFor fn pre = 0 :=
    (countActiveFor_eq_zero_iff fn pre).mpr hpre
  have hone2 := hone
  rw [hsub, countActiveFor_append, countActiveFor_cons, he, hp] at hone2
  simp only [if_pos] at hone2
  have hpost : countActiveFor fn post = 0 := by omega
  have hthr : ∀ e2 ∈ l, isActiveFor fn e2 = true → e2.threshold = t := by
    intro e2 he2 hact
    rw [hldef] at he2
    rcases List.mem_append.mp he2 with h2 | h2
    · rw [isActiveFor_eq_true_iff] at hact
      exact absurd hact (hpre e2 h2)
    · rcases List.mem_cons.mp h2 with rfl | h3
      · rfl
      · rw [isActiveFor_eq_true_iff] at hact
        exact absurd hact ((countActiveFor_eq_zero_iff fn post).mp hpost e2 h3)
  refine ⟨by rw [heq], ?_, ?_, ?_, heqsafe.trans heq.symm⟩
  · rw [heq]
    exact (updateActiveMatch_counts fn t s.subscribers l hl fn).2
  · rw [heq]
    exact ((updateActiveMatch_counts fn t s.subscribers l hl fn).1).trans hone
  · rw [heq]
    exact hthr

/-- Claim C1 witness: on a one-entry table holding an active subscription
for callback 1, a re-subscribe at a new threshold succeeds and keeps
exactly one active entry for that callback. -/
theorem c1_resubscribe_updates_in_place_witness :
    (elog_subscribe (some 1) LOG_LEVEL_ERROR
      ⟨[⟨some 1, LOG_LEVEL_TRACE, true⟩], [], ""⟩).1 = LOG_ERR_NONE ∧
    countActiveFor (some 1)
      (elog_subscribe (some 1) LOG_LEVEL_ERROR
        ⟨[⟨some 1, LOG_LEVEL_TRACE, true⟩], [], ""⟩).2.subscribers = 1 :=
  have h := c1_resubscribe_updates_in_place (some 1) LOG_LEVEL_ERROR
    ⟨[⟨some 1, LOG_LEVEL_TRACE, true⟩], [], ""⟩ (by decide) (by decide)
  ⟨h.1, h.2.2.1⟩

/-- Claim C2 (code-bug evidence): on one and the same state — module
"net.c" overridden to WARNING, one active TRACE subscriber — a DEBUG emit
through elog_message_with_location is dropped (state unchanged, no
invocation), while the thread-safe variant with the mutex present and
acquired formats and dispatches the message: elog_message_with_location_safe
never consults the per-file threshold table. -/
theorem c2_location_safe_skips_gate_bug :
    (elog_message_with_location LOG_LEVEL_DEBUG "net.c" "f" 7 "m"
      ⟨[⟨some 1, LOG_LEVEL_TRACE, true⟩],
       [⟨"net.c", LOG_LEVEL_WARNING⟩], ""⟩) =
      (⟨[⟨some 1, LOG_LEVEL_TRACE, true⟩],
        [⟨"net.c", LOG_LEVEL_WARNING⟩], ""⟩, []) ∧
    (elog_message_with_location_safe true ELOG_THREAD_OK LOG_LEVEL_DEBUG
      "net.c" "f" 7 "m"
      ⟨[⟨some 1, LOG_LEVEL_TRACE, true⟩],
       [⟨"net.c", LOG_LEVEL_WARNING⟩], ""⟩).2 =
      [⟨some 1, LOG_LEVEL_DEBUG, "[net.c][f][7] m"⟩] := by
  constructor
  · decide
  · decide

/-- Claim C3, counterexample: a per-file override stored before elog_init
is still observable after it — elog_init never touches fileLogLevels, so
the per-module threshold table is not cleared. -/
theorem c3_init_keeps_file_thresholds_counterexample :
    ((elog_init (elog_set_file_threshold (some "net.c") LOG_LEVEL_ERROR
      ⟨[], [], ""⟩).2).fileLogLevels ≠ []) ∧
    elog_get_file_threshold (some "net.c")
      (elog_init (elog_set_file_threshold (some "net.c") LOG_LEVEL_ERROR
        ⟨[], [], ""⟩).2) = LOG_LEVEL_ERROR := by
  constructor
  · decide
  · decide

/-- Claim C3 (amended): elog_init empties the subscriber table — the
count becomes 0 and no entry, in particular no active one, is visible —
but it leaves the per-module threshold table exactly as it was. -/
theorem c3_init_clears_subscribers_only (s : ElogState) :
    (elog_init s).subscribers = [] ∧
    (elog_init s).fileLogLevels = s.fileLogLevels :=
  ⟨rfl, rfl⟩

/-- Claim C4, counterexample: with a 32-character name the stored entry
keeps only the first 31 characters, so the lookup by the full name never
matches and a second call appends a second entry — the table grows from
length 1 to length 2. -/
theorem c4_long_name_grows_counterexample :
    ((elog_set_file_threshold (some "aaaaaaaaaaaaaaaaaaaaaaaaaaaaaaaa")
        LOG_LEVEL_DEBUG ⟨[], [], ""⟩).2).fileLogLevels.length = 1 ∧
    ((elog_set_file_threshold (some "aaaaaaaaaaaaaaaaaaaaaaaaaaaaaaaa")
        LOG_LEVEL_INFO
        (elog_set_file_threshold (some "aaaaaaaaaaaaaaaaaaaaaaaaaaaaaaaa")
          LOG_LEVEL_DEBUG ⟨[], [], ""⟩).2).2).fileLogLevels.length = 2 := by
  constructor
  · decide
  · decide

/-- Claim C4 (amended): for any name of at most 31 characters — which is
stored untruncated — a second elog_set_file_threshold call with the same
name and any level leaves the module-threshold table length exactly what
it was after the first call. -/
theorem c4_set_file_threshold_idempotent_short (nm : String) (t1 t2 : Nat)
    (s : ElogState) (h : nm.toList.length ≤ 31) :
    ((elog_set_file_threshold (some nm) t2
        (elog_set_file_threshold (some nm) t1 s).2).2).fileLogLevels.length =
      ((elog_set_file_threshold (some nm) t1 s).2).fileLogLevels.length := by
  have hstore : strTake 31 nm = nm := strTake_of_length_le 31 nm h
  by_cases h1 : (elog_set_file_threshold (some nm) t1 s).1 = LOG_ERR_NONE
  · exact set_file_threshold_found_length nm t2 _
      (set_file_threshold_success_mem nm t1 s hstore h1)
  · have hfix := (set_file_threshold_not_none nm t1 s h1).2
    rw [hfix]
    have h2 : (elog_set_file_threshold (some nm) t2 s).1 ≠ LOG_ERR_NONE := by
      intro hc
      rcases hscan : setFileThresholdScan nm t2 s.fileLogLevels with _ | l
      · have hscan1 : setFileThresholdScan nm t1 s.fileLogLevels = none := by
          rw [setFileThresholdScan_eq_none_iff] at hscan ⊢
          exact hscan
        by_cases hcap : s.fileLogLevels.length < MAX_FILE_LOG_LEVELS
        · simp only [elog_set_file_threshold, hscan1, if_pos hcap] at h1
          exact h1 (by simp)
        · simp only [elog_set_file_threshold, hscan, if_neg hcap] at hc
          exact absurd hc (by simp)
      · have hex : ∃ e ∈ s.fileLogLevels, e.filename = nm := by
          by_contra hmem
          push_neg at hmem
          have hn : setFileThresholdScan nm t2 s.fileLogLevels = none :=
            (setFileThresholdScan_eq_none_iff nm t2 s.fileLogLevels).mpr hmem
          simp [hn] at hscan
        rcases hex with ⟨e, he, hnm⟩
        have hn1 : setFileThresholdScan nm t1 s.fileLogLevels ≠ none := by
          intro hn
          rw [setFileThresholdScan_eq_none_iff] at hn
          exact absurd hnm (hn e he)
        rcases hscan1 : setFileThresholdScan nm t1 s.fileLogLevels with _ | l1
        · exact absurd hscan1 hn1
        · simp only [elog_set_file_threshold, hscan1] at h1
          exact h1 (by simp)
    rw [(set_file_threshold_not_none nm t2 s h2).2]

/-- Claim C4 witness: a concrete short name set twice keeps the table at
length one. -/
theorem c4_set_file_threshold_idempotent_short_witness :
    ((elog_set_file_threshold (some "net.c") LOG_LEVEL_INFO
        (elog_set_file_threshold (some "net.c") LOG_LEVEL_DEBUG
          ⟨[], [], ""⟩).2).2).fileLogLevels.length =
      ((elog_set_file_threshold (some "net.c") LOG_LEVEL_DEBUG
          ⟨[], [], ""⟩).2).fileLogLevels.length :=
  c4_set_file_threshold_idempotent_short "net.c" LOG_LEVEL_DEBUG
    LOG_LEVEL_INFO ⟨[], [], ""⟩ (by decide)

/-- Claim C5, counterexample: the empty name is not rejected —
elog_set_file_threshold only tests for NULL, so the empty string is
accepted with LOG_ERR_NONE and an entry with empty filename is appended,
contradicting both halves of the claim. -/
theorem c5_empty_name_accepted_counterexample :
    (elog_set_file_threshold (some "") LOG_LEVEL_ERROR ⟨[], [], ""⟩).1 =
      LOG_ERR_NONE ∧
    (elog_set_file_threshold (some "") LOG_LEVEL_ERROR
      ⟨[], [], ""⟩).2.fileLogLevels = [⟨"", LOG_LEVEL_ERROR⟩] := by
  constructor
  · decide
  · decide

/-- Claim C5 (amended): elog_set_file_threshold returns
LOG_ERR_INVALID_LEVEL exactly when the name is NULL, and in that case the
whole state — in particular the module-threshold table — is unchanged;
any non-NULL name, the empty string included, is never answered with
LOG_ERR_INVALID_LEVEL. -/
theorem c5_invalid_level_iff_null (t : Nat) (s : ElogState) :
    (elog_set_file_threshold none t s).1 = LOG_ERR_INVALID_LEVEL ∧
    (elog_set_file_threshold none t s).2 = s ∧
    ∀ nm : String,
      (elog_set_file_threshold (some nm) t s).1 ≠ LOG_ERR_INVALID_LEVEL := by
  refine ⟨rfl, rfl, ?_⟩
  intro nm
  rcases hscan : setFileThresholdScan nm t s.fileLogLevels with _ | l
  · by_cases hcap : s.fileLogLevels.length < MAX_FILE_LOG_LEVELS
    · simp [elog_set_file_threshold, hscan, hcap]
    · simp [elog_set_file_threshold, hscan, hcap]
  · simp [elog_set_file_threshold, hscan]

/-- Claim C5 witness: concrete NULL and non-NULL instances of the amended
statement. -/
theorem c5_invalid_level_iff_null_witness :
    (elog_set_file_threshold none LOG_LEVEL_ERROR ⟨[], [], ""⟩).1 =
      LOG_ERR_INVALID_LEVEL ∧
    (elog_set_file_threshold (some "x") LOG_LEVEL_ERROR ⟨[], [], ""⟩).1 ≠
      LOG_ERR_INVALID_LEVEL :=
  ⟨(c5_invalid_level_iff_null LOG_LEVEL_ERROR ⟨[], [], ""⟩).1,
   (c5_invalid_level_iff_null LOG_LEVEL_ERROR ⟨[], [], ""⟩).2.2 "x"⟩

/-- Claim C6: elog_message invokes exactly the active entries whose
threshold is at most the message severity — each exactly once, in table
(insertion) order, receiving the severity and the text stored in the
shared buffer — and no inactive or higher-threshold entry. -/
theorem c6_message_dispatch_exact (level : Nat) (msg : String)
    (s : ElogState) :
    (elog_message level msg s).2 =
      (s.subscribers.filter
        (fun e => e.active && decide (e.threshold ≤ level))).map
        (fun e => ⟨e.fn, level, strTake (LOG_MAX_MESSAGE_LENGTH - 1) msg⟩) :=
  dispatchCalls_eq_filter_map level
    (strTake (LOG_MAX_MESSAGE_LENGTH - 1) msg) s.subscribers

/-- Claim C8: with the mutex flag set and the take timing out,
elog_subscribe_safe answers LOG_ERR_SUBSCRIBERS_EXCEEDED,
elog_unsubscribe_safe answers LOG_ERR_NOT_SUBSCRIBED, and
elog_message_safe performs no invocation; each leaves the whole state —
subscriber table and module-threshold table included — unchanged. -/
theorem c8_timeout_behavior (fn : Option Nat) (t level : Nat)
    (msg : String) (s : ElogState) :
    elog_subscribe_safe true ELOG_THREAD_TIMEOUT fn t s =
      (LOG_ERR_SUBSCRIBERS_EXCEEDED, s) ∧
    elog_unsubscribe_safe true ELOG_THREAD_TIMEOUT fn s =
      (LOG_ERR_NOT_SUBSCRIBED, s) ∧
    elog_message_safe true ELOG_THREAD_TIMEOUT level msg s = (s, []) :=
  ⟨rfl, rfl, rfl⟩

/-- Claim C7: elog_unsubscribe with no active match returns
LOG_ERR_NOT_SUBSCRIBED and leaves the state untouched; with an active
match it returns LOG_ERR_NONE and the only change is that the first
active entry for fn has its active flag cleared — every other entry,
every other field, the table length and the rest of the state are
unchanged. -/
theorem c7_unsubscribe_spec (fn : Option Nat) (s : ElogState) :
    ((∀ e ∈ s.subscribers, ¬(e.fn = fn ∧ e.active = true)) →
      elog_unsubscribe fn s = (LOG_ERR_NOT_SUBSCRIBED, s)) ∧
    ((∃ e ∈ s.subscribers, e.fn = fn ∧ e.active = true) →
      (elog_unsubscribe fn s).1 = LOG_ERR_NONE ∧
      (elog_unsubscribe fn s).2.fileLogLevels = s.fileLogLevels ∧
      (elog_unsubscribe fn s).2.messageBuffer = s.messageBuffer ∧
      (elog_unsubscribe fn s).2.subscribers.length = s.subscribers.length ∧
      ∃ pre e post, s.subscribers = pre ++ e :: post ∧
        (e.fn = fn ∧ e.active = true) ∧
        (∀ e2 ∈ pre, ¬(e2.fn = fn ∧ e2.active = true)) ∧
        (elog_unsubscribe fn s).2.subscribers =
          pre ++ { e with active := false } :: post) := by
  constructor
  · intro hall
    have hn : deactivateActiveMatch fn s.subscribers = none :=
      (deactivateActiveMatch_eq_none_iff fn s.subscribers).mpr hall
    rw [elog_unsubscribe, hn]
  · intro hex
    have hne : deactivateActiveMatch fn s.subscribers ≠ none := by
      intro hn
      rw [deactivateActiveMatch_eq_none_iff] at hn
      rcases hex with ⟨e, he, hm⟩
      exact hn e he hm
    rcases hl : deactivateActiveMatch fn s.subscribers with _ | l
    · exact absurd hl hne
    have heq : elog_unsubscribe fn s =
        (LOG_ERR_NONE, { s with subscribers := l }) := by
      rw [elog_unsubscribe, hl]
    rcases deactivateActiveMatch_eq_some fn s.subscribers l hl with
      ⟨pre, e, post, hsub, hldef, hmatch, hpre⟩
    refine ⟨by rw [heq], by rw [heq], by rw [heq], ?_,
      pre, e, post, hsub, hmatch, hpre, ?_⟩
    · rw [heq, hsub]
      simp [hldef]
    · rw [heq]
      exact hldef

/-- Claim C7 witness: unsubscribing from an empty table reports
LOG_ERR_NOT_SUBSCRIBED, and unsubscribing an actively subscribed callback
succeeds. -/
theorem c7_unsubscribe_spec_witness :
    elog_unsubscribe (some 1) ⟨[], [], ""⟩ =
      (LOG_ERR_NOT_SUBSCRIBED, ⟨[], [], ""⟩) ∧
    (elog_unsubscribe (some 1)
      ⟨[⟨some 1, 100, true⟩], [], ""⟩).1 = LOG_ERR_NONE :=
  ⟨(c7_unsubscribe_spec (some 1) ⟨[], [], ""⟩).1 (by simp),
   ((c7_unsubscribe_spec (some 1) ⟨[⟨some 1, 100, true⟩], [], ""⟩).2
      ⟨⟨some 1, 100, true⟩, by simp, by simp⟩).1⟩

theorem uniqueActive_update (fn : Option Nat) (t : Nat)
    (subs l : List subscriber_entry_t)
    (h : updateActiveMatch fn t subs = some l) (hu : UniqueActive subs) :
    UniqueActive l := by
  intro g
  rw [(updateActiveMatch_counts fn t subs l h g).1]
  exact hu g

theorem uniqueActive_append_new (fn : Option Nat) (t : Nat)
    (subs : List subscriber_entry_t)
    (h : updateActiveMatch fn t subs = none) (hu : UniqueActive subs) :
    UniqueActive (subs ++ [⟨fn, t, true⟩]) := by
  intro g
  rw [countActiveFor_append]
  by_cases hg : g = fn
  · subst hg
    have h0 : countActiveFor g subs = 0 := by
      rw [countActiveFor_eq_zero_iff]
      exact (updateActiveMatch_eq_none_iff g t subs).mp h
    have h1 : countActiveFor g [⟨g, t, true⟩] = 1 := by
      simp [countActiveFor, List.filter, isActiveFor]
    rw [h0, h1]
  · have hfg : (decide ((⟨fn, t, true⟩ : subscriber_entry_t).fn = g)) = false := by
      simp only [decide_eq_false_iff_not]
      intro hc
      exact hg (hc.symm)
    have h1 : countActiveFor g [⟨fn, t, true⟩] = 0 := by
      simp [countActiveFor, List.filter, isActiveFor, hfg]
    rw [h1]
    exact hu g

theorem uniqueActive_deactivate (fn : Option Nat)
    (subs l : List subscriber_entry_t)
    (h : deactivateActiveMatch fn subs = some l) (hu : UniqueActive subs) :
    UniqueActive l := fun g =>
  le_trans (deactivateActiveMatch_count_le fn subs l h g) (hu g)

theorem elog_subscribe_safe_ok (fn : Option Nat) (t : Nat) (s : ElogState) :
    elog_subscribe_safe true ELOG_THREAD_OK fn t s =
      if s.subscribers.length < LOG_MAX_SUBSCRIBERS then
        match updateActiveMatch fn t s.subscribers with
        | some subs => (LOG_ERR_NONE, { s with subscribers := subs })
        | none =>
          (LOG_ERR_NONE,
            { s with subscribers := s.subscribers ++ [⟨fn, t, true⟩] })
      else (LOG_ERR_SUBSCRIBERS_EXCEEDED, s) := rfl

theorem elog_unsubscribe_safe_ok (fn : Option Nat) (s : ElogState) :
    elog_unsubscribe_safe true ELOG_THREAD_OK fn s =
      match deactivateActiveMatch fn s.subscribers with
      | some subs => (LOG_ERR_NONE, { s with subscribers := subs })
      | none => (LOG_ERR_NOT_SUBSCRIBED, s) := rfl

/-- Claim C9: in every reachable state at most one active entry exists
per distinct callback reference — elog_init establishes the property
(empty table) and every operation, locked or not and whatever the mutex
outcome, preserves it. -/
theorem c9_unique_active_invariant (s : ElogState) (fn : Option Nat)
    (t level : Nat) (msg file func : String) (line : Int)
    (mi : Bool) (tr : elog_thread_result_t)
    (h : UniqueActive s.subscribers) :
    UniqueActive (elog_init s).subscribers ∧
    UniqueActive (elog_subscribe fn t s).2.subscribers ∧
    UniqueActive (elog_unsubscribe fn s).2.subscribers ∧
    UniqueActive (elog_subscribe_safe mi tr fn t s).2.subscribers ∧
    UniqueActive (elog_unsubscribe_safe mi tr fn s).2.subscribers ∧
    UniqueActive (elog_message level msg s).1.subscribers ∧
    UniqueActive
      (elog_message_with_location level file func line msg s).1.subscribers ∧
    UniqueActive (elog_message_safe mi tr level msg s).1.subscribers ∧
    UniqueActive (elog_message_with_location_safe mi tr level file func
      line msg s).1.subscribers := by
  have hinit : UniqueActive ([] : List subscriber_entry_t) := by
    intro g
    simp [countActiveFor]
  have hsub : UniqueActive (elog_subscribe fn t s).2.subscribers := by
    by_cases hfull : LOG_MAX_SUBSCRIBERS ≤ s.subscribers.length
    · rw [elog_subscribe, if_pos hfull]
      exact h
    · rcases hl : updateActiveMatch fn t s.subscribers with _ | l
      · rw [elog_subscribe, if_neg hfull, hl]
        exact uniqueActive_append_new fn t s.subscribers hl h
      · rw [elog_subscribe, if_neg hfull, hl]
        exact uniqueActive_update fn t s.subscribers l hl h
  have huns : UniqueActive (elog_unsubscribe fn s).2.subscribers := by
    rcases hl : deactivateActiveMatch fn s.subscribers with _ | l
    · rw [elog_unsubscribe, hl]
      exact h
    · rw [elog_unsubscribe, hl]
      exact uniqueActive_deactivate fn s.subscribers l hl h
  have hsubs : UniqueActive (elog_subscribe_safe mi tr fn t s).2.subscribers := by
    cases mi with
    | false => exact hsub
    | true =>
      cases tr with
      | ELOG_THREAD_OK =>
        rw [elog_subscribe_safe_ok]
        by_cases hlen : s.subscribers.length < LOG_MAX_SUBSCRIBERS
        · rw [if_pos hlen]
          rcases hl : updateActiveMatch fn t s.subscribers with _ | l
          · exact uniqueActive_append_new fn t s.subscribers hl h
          · exact uniqueActive_update fn t s.subscribers l hl h
        · rw [if_neg hlen]
          exact h
      | ELOG_THREAD_TIMEOUT => exact h
      | ELOG_THREAD_ERROR => exact h
      | ELOG_THREAD_NOT_SUPPORTED => exact h
  have hunss : UniqueActive (elog_unsubscribe_safe mi tr fn s).2.subscribers := by
    cases mi with
    | false => exact huns
    | true =>
      cases tr with
      | ELOG_THREAD_OK =>
        rw [elog_unsubscribe_safe_ok]
        rcases hl : deactivateActiveMatch fn s.subscribers with _ | l
        · exact h
        · exact uniqueActive_deactivate fn s.subscribers l hl h
      | ELOG_THREAD_TIMEOUT => exact h
      | ELOG_THREAD_ERROR => exact h
      | ELOG_THREAD_NOT_SUPPORTED => exact h
  have hloc : UniqueActive
      (elog_message_with_location level file func line msg s).1.subscribers := by
    simp only [elog_message_with_location]
    split
    · exact h
    · exact h
  have hmsafe : UniqueActive (elog_message_safe mi tr level msg s).1.subscribers := by
    cases mi with
    | false => exact h
    | true =>
      cases tr with
      | ELOG_THREAD_OK => exact h
      | ELOG_THREAD_TIMEOUT => exact h
      | ELOG_THREAD_ERROR => exact h
      | ELOG_THREAD_NOT_SUPPORTED => exact h
  have hlocsafe : UniqueActive (elog_message_with_location_safe mi tr level
      file func line msg s).1.subscribers := by
    cases mi with
    | false => exact h
    | true =>
      cases tr with
      | ELOG_THREAD_OK => exact h
      | ELOG_THREAD_TIMEOUT => exact h
      | ELOG_THREAD_ERROR => exact h
      | ELOG_THREAD_NOT_SUPPORTED => exact h
  exact ⟨hinit, hsub, huns, hsubs, hunss, h, hloc, hmsafe, hlocsafe⟩

/-- Claim C9 witness: the invariant holds after subscribing into the
freshly initialized (empty) registry. -/
theorem c9_unique_active_invariant_witness :
    UniqueActive (elog_subscribe (some 1) 100 ⟨[], [], ""⟩).2.subscribers :=
  (c9_unique_active_invariant ⟨[], [], ""⟩ (some 1) 100 100 "m" "f" "g" 0
    true ELOG_THREAD_OK (fun _ => Nat.zero_le 1)).2.1

/-- Claim C10: elog_subscribe performs no validity check on the callback
argument; when the table is not full and no active NULL-callback entry
exists, subscribing NULL succeeds, appends an active entry whose callback
is the null pointer, and a later dispatch at severity at least its
threshold invokes that NULL callback. -/
theorem c10_null_callback_subscribed_and_invoked (t level : Nat)
    (msg : String) (s : ElogState)
    (hlen : s.subscribers.length < LOG_MAX_SUBSCRIBERS)
    (hnone : ∀ e ∈ s.subscribers, ¬(e.fn = none ∧ e.active = true))
    (hlev : t ≤ level) :
    (elog_subscribe none t s).1 = LOG_ERR_NONE ∧
    (elog_subscribe none t s).2.subscribers =
      s.subscribers ++ [⟨none, t, true⟩] ∧
    (⟨none, level, strTake (LOG_MAX_MESSAGE_LENGTH - 1) msg⟩ : Invocation) ∈
      (elog_message level msg (elog_subscribe none t s).2).2 := by
  have hscan : updateActiveMatch none t s.subscribers = none :=
    (updateActiveMatch_eq_none_iff none t s.subscribers).mpr hnone
  have hnotfull : ¬ (LOG_MAX_SUBSCRIBERS ≤ s.subscribers.length) := by omega
  have heq : elog_subscribe none t s =
      (LOG_ERR_NONE,
        { s with subscribers := s.subscribers ++ [⟨none, t, true⟩] }) := by
    rw [elog_subscribe, if_neg hnotfull, hscan]
  refine ⟨by rw [heq], by rw [heq], ?_⟩
  rw [heq]
  show _ ∈ dispatchCalls level (strTake (LOG_MAX_MESSAGE_LENGTH - 1) msg)
    (s.subscribers ++ [⟨none, t, true⟩])
  rw [dispatchCalls_eq_filter_map]
  refine List.mem_map.mpr ⟨⟨none, t, true⟩, List.mem_filter.mpr ⟨?_, ?_⟩, rfl⟩
  · exact List.mem_append_right _ (List.mem_singleton.mpr rfl)
  · simp [hlev]

/-- Claim C10 witness: subscribing NULL into the empty registry at
threshold TRACE and emitting at ERROR invokes the NULL callback. -/
theorem c10_null_callback_witness :
    (elog_subscribe none 100 ⟨[], [], ""⟩).1 = LOG_ERR_NONE ∧
    (⟨none, 104, strTake (LOG_MAX_MESSAGE_LENGTH - 1) "m"⟩ : Invocation) ∈
      (elog_message 104 "m" (elog_subscribe none 100 ⟨[], [], ""⟩).2).2 :=
  have h := c10_null_callback_subscribed_and_invoked 100 104 "m"
    ⟨[], [], ""⟩ (by decide) (by simp) (by decide)
  ⟨h.1, h.2.2⟩

end ELog
